import Mathlib

/-!
Shallow embedding of the sketch-pad component
(`src/lib/components/sketch.svelte`) and the posts page-load function
(`src/routes/+page.svelte`).  Pointer coordinates are modelled as integers
(the handlers only subtract the canvas origin from the event position, so
no arithmetic beyond subtraction occurs).  The 2D canvas context is
modelled by its current pen point, its accumulated path (a list of line
segments), and the visible raster, taken — as the specification itself
does — to be the ordered collection of committed line segments; stroking
an already-committed segment with the same style leaves the raster
unchanged, which the `commitSeg` operation reflects.
-/

namespace SketchApp

/-- A point in device pixel coordinates relative to the canvas top-left. -/
structure Point where
  x : Int
  y : Int
deriving DecidableEq, Repr

/-- The tag of a drawing action, `moveTo` or `lineTo`, as in the source's
`DrawingAction` discriminated union. -/
inductive ActionType
  | moveTo
  | lineTo
deriving DecidableEq, Repr, BEq

/-- One record of the action log: `{ type: 'moveTo' | 'lineTo', x, y }`. -/
structure DrawingAction where
  type : ActionType
  x : Int
  y : Int
deriving DecidableEq, Repr

/-- A straight line segment between two points. -/
structure Segment where
  src : Point
  dst : Point
deriving DecidableEq, Repr

/-- State of a 2D canvas rendering context: the current pen point (none
when the path has no subpath), the subpath start (for `closePath`), the
accumulated path segments, the visible raster as the ordered list of
committed segments, and the stroke style settings. -/
structure Ctx where
  pen : Option Point
  subpathStart : Option Point
  path : List Segment
  raster : List Segment
  strokeStyle : String
  lineWidth : Nat
deriving DecidableEq, Repr

/-- A freshly created 2D context: empty path, blank raster, and the canvas
defaults for stroke style and line width. -/
def ctxInit : Ctx :=
  { pen := none, subpathStart := none, path := [], raster := [],
    strokeStyle := "#000000", lineWidth := 1 }

/-- Context operation `moveTo(x, y)`: begin a new subpath at the point;
the path's existing segments and the raster are untouched. -/
def ctxMoveTo (p : Point) (c : Ctx) : Ctx :=
  { c with pen := some p, subpathStart := some p }

/-- Context operation `lineTo(x, y)`: add a segment from the current pen
point to `p`; with no current subpath it acts like `moveTo` (the canvas
ensure-subpath rule).  Nothing becomes visible until `stroke()`. -/
def ctxLineTo (p : Point) (c : Ctx) : Ctx :=
  match c.pen with
  | none => { c with pen := some p, subpathStart := some p }
  | some q => { c with pen := some p, path := c.path ++ [⟨q, p⟩] }

/-- Commit one segment to the raster: stroking a segment already visible
with the same style changes no pixels, so committing is idempotent. -/
def commitSeg (raster : List Segment) (seg : Segment) : List Segment :=
  if seg ∈ raster then raster else raster ++ [seg]

/-- Context operation `stroke()`: commit every segment of the current path
to the visible raster, in path order. -/
def ctxStroke (c : Ctx) : Ctx :=
  { c with raster := c.path.foldl commitSeg c.raster }

/-- Context operation `clearRect(0, 0, width, height)` over the whole
canvas: the raster becomes blank; the path is not affected. -/
def ctxClearRect (c : Ctx) : Ctx :=
  { c with raster := [] }

/-- Context operation `beginPath()`: discard all subpaths. -/
def ctxBeginPath (c : Ctx) : Ctx :=
  { c with pen := none, subpathStart := none, path := [] }

/-- Context operation `closePath()`: if a subpath is open, add its closing
segment back to its start and move the pen there; no stroke happens. -/
def ctxClosePath (c : Ctx) : Ctx :=
  match c.subpathStart, c.pen with
  | some st, some p => { c with path := c.path ++ [⟨p, st⟩], pen := some st }
  | _, _ => c

/-- A pointer input sample: the client coordinates of a mouse event or of
the first touch point of a touch event (the handlers read exactly these
from either event kind). -/
structure PointerEvent where
  clientX : Int
  clientY : Int
deriving DecidableEq, Repr

/-- The canvas bounding rectangle's top-left corner, as returned by
`getBoundingClientRect()` at the time of the event. -/
structure Rect where
  left : Int
  top : Int
deriving DecidableEq, Repr

/-- A stored sketch document: `addDoc(sketchCollection, { drawingActions })`
stores exactly the action log. -/
structure SketchDoc where
  drawingActions : List DrawingAction
deriving DecidableEq, Repr

/-- The sketch component's local state: the in-memory action log, the
`drawing` flag, the notification flag, the gallery list, whether the
canvas element is bound, and the 2D context when acquired. -/
structure SketchState where
  drawingActions : List DrawingAction
  drawing : Bool
  showNotification : Bool
  sketches : List (List DrawingAction)
  canvas : Bool
  ctx : Option Ctx
deriving DecidableEq, Repr

/-- Handler `startDrawing`: return if the canvas is null; otherwise set
`drawing`, push a `moveTo` action at the local coordinate, and — only when
the context is non-null — call `ctx.moveTo` there. -/
def startDrawing (rect : Rect) (e : PointerEvent) (s : SketchState) : SketchState :=
  if s.canvas = false then s
  else
    let x := e.clientX - rect.left
    let y := e.clientY - rect.top
    let s1 := { s with drawing := true,
                       drawingActions := s.drawingActions ++ [DrawingAction.mk ActionType.moveTo x y] }
    match s1.ctx with
    | none => s1
    | some c => { s1 with ctx := some (ctxMoveTo ⟨x, y⟩ c) }

/-- Handler `draw`: return unless `drawing` is set and both the canvas and
its context are non-null; otherwise push a `lineTo` action at the local
coordinate, call `ctx.lineTo` and `ctx.stroke`. -/
def draw (rect : Rect) (e : PointerEvent) (s : SketchState) : SketchState :=
  match s.ctx with
  | none => s
  | some c =>
    if s.drawing = false ∨ s.canvas = false then s
    else
      let x := e.clientX - rect.left
      let y := e.clientY - rect.top
      { s with drawingActions := s.drawingActions ++ [DrawingAction.mk ActionType.lineTo x y],
               ctx := some (ctxStroke (ctxLineTo ⟨x, y⟩ c)) }

/-- Handler `endDrawing`: if not drawing return; otherwise clear the
`drawing` flag.  The event's coordinates are not read. -/
def endDrawing (s : SketchState) : SketchState :=
  if s.drawing = false then s else { s with drawing := false }

/-- Outcome of a `saveSketch` call: the awaited write succeeded, the write
rejected, or the guard short-circuited the whole function. -/
inductive SaveOutcome
  | saved
  | writeFailed
  | skipped
deriving DecidableEq, Repr

/-- Handler `saveSketch`: return if canvas or context is null; then
`await addDoc(sketchCollection, { drawingActions })` — a rejected write
propagates before any local mutation — and on success append a copy of the
log to `sketches`, clear the canvas (`clearRect` + `beginPath`), empty
`drawingActions`, and show the notification.  `writeOk` models whether the
remote store acknowledges the write. -/
def saveSketch (writeOk : Bool) (s : SketchState) (store : List SketchDoc) :
    SketchState × List SketchDoc × SaveOutcome :=
  match s.canvas, s.ctx with
  | false, _ => (s, store, SaveOutcome.skipped)
  | true, none => (s, store, SaveOutcome.skipped)
  | true, some c =>
    if writeOk = false then (s, store, SaveOutcome.writeFailed)
    else
      let store1 := store ++ [⟨s.drawingActions⟩]
      let s1 := { s with sketches := s.sketches ++ [s.drawingActions],
                         ctx := some (ctxBeginPath (ctxClearRect c)),
                         drawingActions := [],
                         showNotification := true }
      (s1, store1, SaveOutcome.saved)

/-- The `fetchSketches` closure run on mount: `getDocs(sketchCollection)`
then map each document to its `drawingActions` field, replacing the
gallery list. -/
def fetchSketches (store : List SketchDoc) (s : SketchState) : SketchState :=
  { s with sketches := store.map SketchDoc.drawingActions }

/-- One step of the `renderSketch` replay loop: `moveTo` actions call
`context.moveTo`; `lineTo` actions call `context.lineTo` then
`context.stroke`. -/
def renderStep (c : Ctx) (a : DrawingAction) : Ctx :=
  match a.type with
  | ActionType.moveTo => ctxMoveTo ⟨a.x, a.y⟩ c
  | ActionType.lineTo => ctxStroke (ctxLineTo ⟨a.x, a.y⟩ c)

/-- Gallery action `renderSketch(node, [drawingActions])`: return if the
node yields no 2D context; otherwise clear the whole canvas, begin a new
path, set stroke style black and line width 2, replay the actions with
`renderStep`, and finally `closePath`.  The node is modelled by its
context, `none` when `getContext` fails. -/
def renderSketch (drawingActions : List DrawingAction) (node : Option Ctx) : Option Ctx :=
  match node with
  | none => none
  | some c0 =>
    let c1 := ctxBeginPath (ctxClearRect c0)
    let c2 := { c1 with strokeStyle := "black", lineWidth := 2 }
    some (ctxClosePath (drawingActions.foldl renderStep c2))

/-- An input event delivered to the capture handlers: mousedown/touchstart,
mousemove/touchmove, or mouseup/mouseout/touchend. -/
inductive InputEvent
  | down (e : PointerEvent)
  | move (e : PointerEvent)
  | up (e : PointerEvent)
deriving DecidableEq, Repr

/-- Dispatch one input event to the matching capture handler. -/
def handleEvent (rect : Rect) (s : SketchState) (ev : InputEvent) : SketchState :=
  match ev with
  | InputEvent.down e => startDrawing rect e s
  | InputEvent.move e => draw rect e s
  | InputEvent.up _ => endDrawing s

/-- Process a sequence of input events in delivery order. -/
def processEvents (rect : Rect) (s : SketchState) (evs : List InputEvent) : SketchState :=
  evs.foldl (handleEvent rect) s

/-- The component state right after mount with the canvas bound and its 2D
context acquired: empty log, not drawing, empty gallery. -/
def initialState : SketchState :=
  { drawingActions := [], drawing := false, showNotification := false,
    sketches := [], canvas := true, ctx := some ctxInit }

/-- A component state whose canvas element was never bound. -/
def canvasMissingState : SketchState :=
  { drawingActions := [], drawing := false, showNotification := false,
    sketches := [], canvas := false, ctx := none }

/-- A component state with the canvas bound but `getContext` not yet run
(or failed), so `ctx` is still null. -/
def ctxMissingState : SketchState :=
  { drawingActions := [], drawing := false, showNotification := false,
    sketches := [], canvas := true, ctx := none }

/-- A small concrete action log used to instantiate the save theorems. -/
def sampleLog : List DrawingAction :=
  [DrawingAction.mk ActionType.moveTo 1 2, DrawingAction.mk ActionType.lineTo 3 4]

/-- A ready component state holding `sampleLog` in memory. -/
def sampleState : SketchState :=
  { drawingActions := sampleLog, drawing := false, showNotification := false,
    sketches := [], canvas := true, ctx := some ctxInit }

/-- Modelled from the spec (section 4.2 Stroke Replay), as the reference
semantics for replay: reduce the action sequence left-to-right; `MoveTo`
repositions the current pen point without drawing; `LineTo` draws a
straight segment from the pen's current position to the new point and
commits it to the visible raster. -/
def specReplayStep (st : Option Point × List Segment) (a : DrawingAction) :
    Option Point × List Segment :=
  match a.type with
  | ActionType.moveTo => (some ⟨a.x, a.y⟩, st.2)
  | ActionType.lineTo =>
    match st.1 with
    | none => (some ⟨a.x, a.y⟩, st.2)
    | some q => (some ⟨a.x, a.y⟩, commitSeg st.2 ⟨q, ⟨a.x, a.y⟩⟩)

/-- Modelled from the spec: the raster produced by replaying an action
sequence on a cleared surface, per the words of section 4.2. -/
def specReplay (drawingActions : List DrawingAction) : List Segment :=
  (drawingActions.foldl specReplayStep (none, [])).2

end SketchApp

namespace PostsPage

/-- A post record: `{ title: string, content: string }`. -/
structure Post where
  title : String
  content : String
deriving DecidableEq, Repr

/-- Result of the SvelteKit `load` function: either the fetched data or a
status/error pair. -/
inductive LoadResult
  | ok (data : List (String × Post))
  | err (status : Nat) (message : String)
deriving DecidableEq, Repr

/-- The page-load function: `get(ref(db, 'posts'))`, then return the
snapshot value when present, else `{ status: 500, error: new Error('Could
not load data') }`.  An absent `posts` node makes `snapshot.val()` null,
modelled as `none`. -/
def load (snapshotVal : Option (List (String × Post))) : LoadResult :=
  match snapshotVal with
  | some data => LoadResult.ok data
  | none => LoadResult.err 500 "Could not load data"

end PostsPage

namespace SketchApp

theorem mem_commitSeg {a s : Segment} {r : List Segment} :
    a ∈ commitSeg r s ↔ a ∈ r ∨ a = s := by
  unfold commitSeg
  split
  · rename_i hs
    constructor
    · exact fun h => Or.inl h
    · rintro (h | rfl)
      · exact h
      · exact hs
  · simp

theorem mem_foldl_commitSeg_of_mem {a : Segment} (P : List Segment) :
    ∀ r : List Segment, a ∈ r → a ∈ P.foldl commitSeg r := by
  induction P with
  | nil => intro r h; simpa using h
  | cons p P ih =>
    intro r h
    exact ih (commitSeg r p) (mem_commitSeg.mpr (Or.inl h))

theorem mem_foldl_commitSeg_self {a : Segment} (P : List Segment) :
    ∀ r : List Segment, a ∈ P → a ∈ P.foldl commitSeg r := by
  induction P with
  | nil => intro r h; simp at h
  | cons p P ih =>
    intro r h
    rcases List.mem_cons.mp h with rfl | h
    · exact mem_foldl_commitSeg_of_mem P _ (mem_commitSeg.mpr (Or.inr rfl))
    · exact ih _ h

theorem foldl_commitSeg_absorbed (P : List Segment) :
    ∀ r : List Segment, (∀ x ∈ P, x ∈ r) → P.foldl commitSeg r = r := by
  induction P with
  | nil => intro r _; rfl
  | cons p P ih =>
    intro r h
    have hp : p ∈ r := h p (List.mem_cons_self p P)
    have hcp : commitSeg r p = r := by simp [commitSeg, hp]
    rw [List.foldl_cons, hcp]
    exact ih r fun x hx => h x (List.mem_cons_of_mem p hx)

theorem ctxClosePath_raster (c : Ctx) : (ctxClosePath c).raster = c.raster := by
  unfold ctxClosePath
  rcases c.subpathStart with _ | st <;> rcases hp : c.pen with _ | p <;> simp [hp]

/-- Invariant carried along the replay fold: the context raster always
equals the committed form of its path, so stroking the whole path again at
each `lineTo` commits exactly the segment that `lineTo` just added, and
the code fold tracks the spec fold. -/
theorem foldl_renderStep_spec (actions : List DrawingAction) :
    ∀ c : Ctx, c.raster = c.path.foldl commitSeg [] →
      (actions.foldl renderStep c).pen
          = (actions.foldl specReplayStep (c.pen, c.raster)).1 ∧
      (actions.foldl renderStep c).raster
          = (actions.foldl specReplayStep (c.pen, c.raster)).2 ∧
      (actions.foldl renderStep c).raster
          = (actions.foldl renderStep c).path.foldl commitSeg [] := by
  induction actions with
  | nil => intro c hinv; exact ⟨rfl, rfl, hinv⟩
  | cons a rest ih =>
    intro c hinv
    have habs : c.path.foldl commitSeg c.raster = c.raster :=
      foldl_commitSeg_absorbed c.path c.raster fun x hx => by
        rw [hinv]; exact mem_foldl_commitSeg_self c.path [] hx
    rcases ht : a.type with _ | _
    · -- moveTo step: pen moves, path and raster untouched
      have hc' : renderStep c a = ctxMoveTo ⟨a.x, a.y⟩ c := by
        unfold renderStep; rw [ht]
      have hs' : specReplayStep (c.pen, c.raster) a = (some ⟨a.x, a.y⟩, c.raster) := by
        unfold specReplayStep; rw [ht]
      rw [List.foldl_cons, List.foldl_cons, hc', hs']
      exact ih (ctxMoveTo ⟨a.x, a.y⟩ c) hinv
    · -- lineTo step
      rcases hpen : c.pen with _ | q
      · have hc' : renderStep c a = ctxStroke (ctxLineTo ⟨a.x, a.y⟩ c) := by
          unfold renderStep; rw [ht]
        have hL : ctxLineTo ⟨a.x, a.y⟩ c
            = { c with pen := some ⟨a.x, a.y⟩, subpathStart := some ⟨a.x, a.y⟩ } := by
          unfold ctxLineTo; rw [hpen]
        have hs' : specReplayStep (none, c.raster) a = (some ⟨a.x, a.y⟩, c.raster) := by
          simp [specReplayStep, ht]
        rw [List.foldl_cons, List.foldl_cons, hc', hs', hL]
        have : ctxStroke { c with pen := some ⟨a.x, a.y⟩, subpathStart := some ⟨a.x, a.y⟩ }
            = { c with pen := some ⟨a.x, a.y⟩, subpathStart := some ⟨a.x, a.y⟩ } := by
          simp [ctxStroke, habs]
        rw [this]
        exact ih _ hinv
      · have hc' : renderStep c a = ctxStroke (ctxLineTo ⟨a.x, a.y⟩ c) := by
          unfold renderStep; rw [ht]
        have hL : ctxLineTo ⟨a.x, a.y⟩ c
            = { c with pen := some ⟨a.x, a.y⟩, path := c.path ++ [⟨q, ⟨a.x, a.y⟩⟩] } := by
          unfold ctxLineTo; rw [hpen]
        have hs' : specReplayStep (some q, c.raster) a
            = (some ⟨a.x, a.y⟩, commitSeg c.raster ⟨q, ⟨a.x, a.y⟩⟩) := by
          simp [specReplayStep, ht]
        rw [List.foldl_cons, List.foldl_cons, hc', hs', hL]
        have hstk : ctxStroke { c with pen := some ⟨a.x, a.y⟩, path := c.path ++ [⟨q, ⟨a.x, a.y⟩⟩] }
            = { c with pen := some ⟨a.x, a.y⟩, path := c.path ++ [⟨q, ⟨a.x, a.y⟩⟩],
                       raster := commitSeg c.raster ⟨q, ⟨a.x, a.y⟩⟩ } := by
          simp [ctxStroke, List.foldl_append, habs]
        rw [hstk]
        have hinv' : commitSeg c.raster ⟨q, ⟨a.x, a.y⟩⟩
            = (c.path ++ [(⟨q, ⟨a.x, a.y⟩⟩ : Segment)]).foldl commitSeg [] := by
          rw [List.foldl_append, ← hinv]
          rfl
        exact ih _ hinv'

theorem renderSketch_eq (actions : List DrawingAction) (c : Ctx) :
    renderSketch actions (some c)
      = some (ctxClosePath (actions.foldl renderStep
          { pen := none, subpathStart := none, path := [], raster := [],
            strokeStyle := "black", lineWidth := 2 })) := rfl

theorem renderSketch_raster (actions : List DrawingAction) (c : Ctx) :
    (renderSketch actions (some c)).map Ctx.raster = some (specReplay actions) := by
  have h := foldl_renderStep_spec actions
    { pen := none, subpathStart := none, path := [], raster := [],
      strokeStyle := "black", lineWidth := 2 } rfl
  rw [renderSketch_eq]
  simp only [Option.map_some']
  rw [ctxClosePath_raster, h.2.1]
  rfl

theorem foldl_renderStep_ctxInit_raster (actions : List DrawingAction) :
    (actions.foldl renderStep ctxInit).raster = specReplay actions := by
  have h := foldl_renderStep_spec actions ctxInit rfl
  rw [h.2.1]
  rfl

theorem renderSketch_congr (actions : List DrawingAction) (c c' : Ctx) :
    renderSketch actions (some c) = renderSketch actions (some c') := by
  rw [renderSketch_eq, renderSketch_eq]

theorem startDrawing_some (rect : Rect) (e : PointerEvent) (s : SketchState) (c : Ctx)
    (hc : s.canvas = true) (hx : s.ctx = some c) :
    startDrawing rect e s
      = { s with drawing := true,
                 drawingActions := s.drawingActions
                   ++ [DrawingAction.mk ActionType.moveTo (e.clientX - rect.left) (e.clientY - rect.top)],
                 ctx := some (ctxMoveTo ⟨e.clientX - rect.left, e.clientY - rect.top⟩ c) } := by
  simp [startDrawing, hc, hx]

theorem draw_active (rect : Rect) (e : PointerEvent) (s : SketchState) (c : Ctx)
    (hd : s.drawing = true) (hc : s.canvas = true) (hx : s.ctx = some c) :
    draw rect e s
      = { s with drawingActions := s.drawingActions
                   ++ [DrawingAction.mk ActionType.lineTo (e.clientX - rect.left) (e.clientY - rect.top)],
                 ctx := some (ctxStroke (ctxLineTo ⟨e.clientX - rect.left, e.clientY - rect.top⟩ c)) } := by
  simp [draw, hc, hx, hd]

theorem draw_not_drawing (rect : Rect) (e : PointerEvent) (s : SketchState)
    (hd : s.drawing = false) : draw rect e s = s := by
  unfold draw
  rcases hx : s.ctx with _ | c
  · rfl
  · simp [hd]

theorem endDrawing_drawingActions (s : SketchState) :
    (endDrawing s).drawingActions = s.drawingActions := by
  unfold endDrawing; split <;> rfl

theorem endDrawing_ctx (s : SketchState) : (endDrawing s).ctx = s.ctx := by
  unfold endDrawing; split <;> rfl

theorem endDrawing_canvas (s : SketchState) : (endDrawing s).canvas = s.canvas := by
  unfold endDrawing; split <;> rfl

theorem endDrawing_sketches (s : SketchState) : (endDrawing s).sketches = s.sketches := by
  unfold endDrawing; split <;> rfl

theorem processEvents_cons (rect : Rect) (s : SketchState) (ev : InputEvent)
    (evs : List InputEvent) :
    processEvents rect s (ev :: evs) = processEvents rect (handleEvent rect s ev) evs := rfl

theorem processEvents_append (rect : Rect) (s : SketchState) (l l' : List InputEvent) :
    processEvents rect s (l ++ l') = processEvents rect (processEvents rect s l) l' :=
  List.foldl_append _ _ _ _

/-- During an active gesture with the canvas and context present, a run of
move events appends exactly one `lineTo` record per move, keeps the
gesture active, and keeps the canvas and context present. -/
theorem processEvents_moves (rect : Rect) (moves : List PointerEvent) :
    ∀ (s : SketchState) (c : Ctx), s.drawing = true → s.canvas = true → s.ctx = some c →
      (processEvents rect s (moves.map InputEvent.move)).drawingActions
          = s.drawingActions ++ moves.map
              (fun m => DrawingAction.mk ActionType.lineTo (m.clientX - rect.left) (m.clientY - rect.top)) ∧
      (processEvents rect s (moves.map InputEvent.move)).drawing = true ∧
      (processEvents rect s (moves.map InputEvent.move)).canvas = true ∧
      ∃ c', (processEvents rect s (moves.map InputEvent.move)).ctx = some c' := by
  induction moves with
  | nil =>
    intro s c hd hc hx
    exact ⟨by simp [processEvents], hd, hc, c, hx⟩
  | cons m ms ih =>
    intro s c hd hc hx
    rw [List.map_cons, processEvents_cons]
    have hdr := draw_active rect m s c hd hc hx
    have hstep : handleEvent rect s (InputEvent.move m) = draw rect m s := rfl
    rw [hstep]
    obtain ⟨h1, hdrw, hcv, c2, hctx⟩ :=
      ih (draw rect m s) (ctxStroke (ctxLineTo ⟨m.clientX - rect.left, m.clientY - rect.top⟩ c))
        (by rw [hdr]; exact hd) (by rw [hdr]; exact hc) (by rw [hdr])
    refine ⟨?_, hdrw, hcv, c2, hctx⟩
    rw [h1, hdr]
    simp

/-- Live-draw invariant: while the canvas stays bound, the context state
is always the fold of `renderStep` over the in-memory action log — the
capture handlers perform on the live context exactly the context calls
that replaying the log would perform. -/
theorem processEvents_ctx_fold (rect : Rect) (evs : List InputEvent) :
    ∀ (s : SketchState) (c0 : Ctx), s.canvas = true →
      s.ctx = some (s.drawingActions.foldl renderStep c0) →
      (processEvents rect s evs).canvas = true ∧
      (processEvents rect s evs).ctx
          = some ((processEvents rect s evs).drawingActions.foldl renderStep c0) := by
  induction evs with
  | nil => intro s c0 hc hx; exact ⟨hc, hx⟩
  | cons ev evs ih =>
    intro s c0 hc hx
    rw [processEvents_cons]
    rcases ev with e | e | e
    · -- mousedown / touchstart
      have hsd := startDrawing_some rect e s (s.drawingActions.foldl renderStep c0) hc hx
      have hstep : handleEvent rect s (InputEvent.down e) = startDrawing rect e s := rfl
      rw [hstep]
      refine ih (startDrawing rect e s) c0 (by rw [hsd]; exact hc) ?_
      rw [hsd]
      show some (ctxMoveTo _ _) = some (List.foldl renderStep c0 (s.drawingActions ++ _))
      rw [List.foldl_append]
      rfl
    · -- mousemove / touchmove
      rcases hd : s.drawing with _ | _
      · have hne := draw_not_drawing rect e s hd
        have hstep : handleEvent rect s (InputEvent.move e) = draw rect e s := rfl
        rw [hstep, hne]
        exact ih s c0 hc hx
      · have hdr := draw_active rect e s (s.drawingActions.foldl renderStep c0) hd hc hx
        have hstep : handleEvent rect s (InputEvent.move e) = draw rect e s := rfl
        rw [hstep]
        refine ih (draw rect e s) c0 (by rw [hdr]; exact hc) ?_
        rw [hdr]
        show some (ctxStroke (ctxLineTo _ _))
            = some (List.foldl renderStep c0 (s.drawingActions ++ _))
        rw [List.foldl_append]
        rfl
    · -- mouseup / mouseout / touchend
      have hstep : handleEvent rect s (InputEvent.up e) = endDrawing s := rfl
      rw [hstep]
      refine ih (endDrawing s) c0 (by rw [endDrawing_canvas]; exact hc) ?_
      rw [endDrawing_ctx, endDrawing_drawingActions]
      exact hx

theorem foldl_specReplayStep_snd (actions : List DrawingAction)
    (h : ∀ a ∈ actions, a.type = ActionType.moveTo) :
    ∀ st : Option Point × List Segment, (actions.foldl specReplayStep st).2 = st.2 := by
  induction actions with
  | nil => intro st; rfl
  | cons a rest ih =>
    intro st
    have ha : a.type = ActionType.moveTo := h a (List.mem_cons_self a rest)
    have hstep : specReplayStep st a = (some ⟨a.x, a.y⟩, st.2) := by
      simp [specReplayStep, ha]
    rw [List.foldl_cons, hstep]
    exact ih (fun b hb => h b (List.mem_cons_of_mem a hb)) _

theorem specReplay_no_lineTo (actions : List DrawingAction)
    (h : ∀ a ∈ actions, a.type = ActionType.moveTo) : specReplay actions = [] :=
  foldl_specReplayStep_snd actions h (none, [])

/-- C1: for a pointer gesture — one down sample, then move samples while
the gesture is active, ended by an up sample — the capture handlers append
exactly one `moveTo` record followed by one `lineTo` record per move
sample, and a move event appends nothing when no gesture is active. -/
theorem c1_gesture_action_log (rect : Rect) (e eUp : PointerEvent)
    (moves : List PointerEvent) (s : SketchState) (c : Ctx)
    (hd : s.drawing = false) (hc : s.canvas = true) (hx : s.ctx = some c) :
    (processEvents rect s
        (InputEvent.down e :: (moves.map InputEvent.move ++ [InputEvent.up eUp]))).drawingActions
      = s.drawingActions
        ++ (DrawingAction.mk ActionType.moveTo (e.clientX - rect.left) (e.clientY - rect.top)
            :: moves.map (fun m =>
                 DrawingAction.mk ActionType.lineTo (m.clientX - rect.left) (m.clientY - rect.top))) ∧
    (DrawingAction.mk ActionType.moveTo (e.clientX - rect.left) (e.clientY - rect.top)
        :: moves.map (fun m =>
             DrawingAction.mk ActionType.lineTo (m.clientX - rect.left) (m.clientY - rect.top))).countP
        (fun a => a.type == ActionType.moveTo) = 1 ∧
    (DrawingAction.mk ActionType.moveTo (e.clientX - rect.left) (e.clientY - rect.top)
        :: moves.map (fun m =>
             DrawingAction.mk ActionType.lineTo (m.clientX - rect.left) (m.clientY - rect.top))).countP
        (fun a => a.type == ActionType.lineTo) = moves.length ∧
    ∀ (t : SketchState) (ev : PointerEvent), t.drawing = false →
        (draw rect ev t).drawingActions = t.drawingActions := by
  refine ⟨?_, ?_, ?_, fun t ev h => by rw [draw_not_drawing rect ev t h]⟩
  · rw [processEvents_cons]
    have hstep : handleEvent rect s (InputEvent.down e) = startDrawing rect e s := rfl
    rw [hstep, processEvents_append]
    have hsd := startDrawing_some rect e s c hc hx
    obtain ⟨h1, hdrw, hcv, c2, hctx⟩ :=
      processEvents_moves rect moves (startDrawing rect e s)
        (ctxMoveTo ⟨e.clientX - rect.left, e.clientY - rect.top⟩ c)
        (by rw [hsd]) (by rw [hsd]; exact hc) (by rw [hsd])
    show (endDrawing _).drawingActions = _
    rw [endDrawing_drawingActions, h1, hsd]
    simp
  · simp [List.countP_cons, List.countP_map, Function.comp_def,
      show (ActionType.lineTo == ActionType.moveTo) = false from rfl,
      show (ActionType.moveTo == ActionType.moveTo) = true from rfl]
  · simp [List.countP_cons, List.countP_map, Function.comp_def,
      show (ActionType.moveTo == ActionType.lineTo) = false from rfl,
      show (ActionType.lineTo == ActionType.lineTo) = true from rfl, List.countP_true]

theorem c1_witness :
    (processEvents ⟨0, 0⟩ initialState
        (InputEvent.down ⟨1, 2⟩
          :: ([(⟨5, 6⟩ : PointerEvent)].map InputEvent.move ++ [InputEvent.up ⟨7, 8⟩]))).drawingActions
      = [DrawingAction.mk ActionType.moveTo 1 2, DrawingAction.mk ActionType.lineTo 5 6] := by
  have h := c1_gesture_action_log ⟨0, 0⟩ ⟨1, 2⟩ ⟨7, 8⟩ [⟨5, 6⟩] initialState ctxInit rfl rfl rfl
  rw [h.1]
  decide

/-- C2: replay clears the surface (the result is independent of the prior
surface state) and then reduces the sequence left-to-right, producing
exactly the raster of the spec-modelled replay, in which `moveTo`
repositions the pen without drawing and `lineTo` commits the segment from
the pen to the new point. -/
theorem c2_replay_refines_spec (actions : List DrawingAction) (c c' : Ctx) :
    (renderSketch actions (some c)).map Ctx.raster = some (specReplay actions) ∧
    renderSketch actions (some c) = renderSketch actions (some c') :=
  ⟨renderSketch_raster actions c, renderSketch_congr actions c c'⟩

/-- C3: replaying the same log twice on the same surface equals replaying
it once, and for any sequence of live input events from the initial
component state the saved-log replay produces exactly the raster of the
live draw. -/
theorem c3_replay_idempotent_faithful (actions : List DrawingAction) (c : Ctx)
    (rect : Rect) (evs : List InputEvent) :
    renderSketch actions (renderSketch actions (some c)) = renderSketch actions (some c) ∧
    (renderSketch (processEvents rect initialState evs).drawingActions (some c)).map Ctx.raster
        = (processEvents rect initialState evs).ctx.map Ctx.raster := by
  constructor
  · rw [renderSketch_eq actions c]
    exact renderSketch_congr actions _ c
  · have h := processEvents_ctx_fold rect evs initialState ctxInit rfl rfl
    rw [h.2, renderSketch_raster]
    simp only [Option.map_some']
    rw [foldl_renderStep_ctxInit_raster]

/-- C4: a completed save appends exactly one new record holding the action
log to the store — existing records are untouched — and a subsequent load
of all stored sketches returns a collection containing the just-saved
log. -/
theorem c4_save_then_load (s t : SketchState) (store : List SketchDoc) (c : Ctx)
    (hc : s.canvas = true) (hx : s.ctx = some c) :
    (saveSketch true s store).2.1 = store ++ [SketchDoc.mk s.drawingActions] ∧
    (saveSketch true s store).2.2 = SaveOutcome.saved ∧
    s.drawingActions ∈ (fetchSketches (saveSketch true s store).2.1 t).sketches := by
  refine ⟨?_, ?_, ?_⟩ <;> simp [saveSketch, hc, hx, fetchSketches]

theorem c4_witness :
    (saveSketch true sampleState []).2.1 = [SketchDoc.mk sampleLog] ∧
    sampleLog ∈ (fetchSketches (saveSketch true sampleState []).2.1 initialState).sketches := by
  have h := c4_save_then_load sampleState initialState [] ctxInit rfl rfl
  exact ⟨h.1, h.2.2⟩

/-- C5: no capture handler changes the gallery list, and a save only ever
appends to the gallery list and to the store — every previously saved
sketch keeps exactly its contents. -/
theorem c5_saved_sketches_immutable (rect : Rect) (ev : InputEvent) (wk : Bool)
    (s : SketchState) (store : List SketchDoc) :
    (handleEvent rect s ev).sketches = s.sketches ∧
    ((saveSketch wk s store).1.sketches).take s.sketches.length = s.sketches ∧
    ((saveSketch wk s store).2.1).take store.length = store := by
  refine ⟨?_, ?_, ?_⟩
  · rcases ev with e | e | e
    · show (startDrawing rect e s).sketches = s.sketches
      unfold startDrawing
      rcases s.canvas with _ | _
      · rfl
      · rcases hx : s.ctx with _ | c <;> simp [hx]
    · show (draw rect e s).sketches = s.sketches
      unfold draw
      rcases hx : s.ctx with _ | c
      · rfl
      · rcases s.drawing with _ | _ <;> rcases s.canvas with _ | _ <;> simp
    · exact endDrawing_sketches s
  · unfold saveSketch
    rcases s.canvas with _ | _
    · simp
    · rcases hx : s.ctx with _ | c
      · simp
      · rcases wk with _ | _ <;> simp [List.take_left]
  · unfold saveSketch
    rcases s.canvas with _ | _
    · simp
    · rcases hx : s.ctx with _ | c
      · simp
      · rcases wk with _ | _ <;> simp [List.take_left]

/-- C6 counterexample: with the canvas bound but its 2D context missing,
`startDrawing` does not return without appending — it records a `moveTo`
action and activates the gesture. -/
theorem c6_counterexample :
    (startDrawing ⟨0, 0⟩ ⟨5, 7⟩ ctxMissingState).drawingActions
        = [DrawingAction.mk ActionType.moveTo 5 7] ∧
    (startDrawing ⟨0, 0⟩ ⟨5, 7⟩ ctxMissingState).drawing = true ∧
    ¬ (startDrawing ⟨0, 0⟩ ⟨5, 7⟩ ctxMissingState).drawingActions
        = ctxMissingState.drawingActions := by
  refine ⟨?_, ?_, ?_⟩ <;> decide

/-- C6 amended: a missing canvas short-circuits every operation silently;
a missing 2D context short-circuits `draw`, `saveSketch` and
`renderSketch` silently; `startDrawing` checks only the canvas, so with
the context missing it still appends the `moveTo` record and activates
the gesture (skipping only the context call), without throwing and
without any user-visible message. -/
theorem c6_amended_short_circuit (rect : Rect) (e : PointerEvent) (wk : Bool)
    (store : List SketchDoc) (actions : List DrawingAction) (s t : SketchState)
    (hs : s.canvas = false) (ht : t.canvas = true) (htc : t.ctx = none) :
    startDrawing rect e s = s ∧
    draw rect e s = s ∧
    draw rect e t = t ∧
    saveSketch wk s store = (s, store, SaveOutcome.skipped) ∧
    saveSketch wk t store = (t, store, SaveOutcome.skipped) ∧
    renderSketch actions none = none ∧
    startDrawing rect e t
      = { t with drawing := true,
                 drawingActions := t.drawingActions
                   ++ [DrawingAction.mk ActionType.moveTo (e.clientX - rect.left) (e.clientY - rect.top)] } := by
  refine ⟨?_, ?_, ?_, ?_, ?_, rfl, ?_⟩
  · simp [startDrawing, hs]
  · unfold draw
    rcases hx : s.ctx with _ | c
    · rfl
    · simp [hs]
  · unfold draw
    rw [htc]
  · unfold saveSketch
    rw [hs]
  · unfold saveSketch
    rw [ht, htc]
  · simp [startDrawing, ht, htc]

theorem c6_witness :
    startDrawing ⟨0, 0⟩ ⟨1, 1⟩ canvasMissingState = canvasMissingState ∧
    saveSketch true ctxMissingState [] = (ctxMissingState, [], SaveOutcome.skipped) := by
  have h := c6_amended_short_circuit ⟨0, 0⟩ ⟨1, 1⟩ true [] []
    canvasMissingState ctxMissingState rfl rfl rfl
  exact ⟨h.1, h.2.2.2.2.1⟩

/-- C7: an action log with no `lineTo` record replays to a blank raster,
a down+up gesture with no move yields exactly a one-element `moveTo` log,
and such a log still saves successfully as a new record. -/
theorem c7_no_lineTo_blank (actions : List DrawingAction) (c : Ctx) (s : SketchState)
    (store : List SketchDoc) (cs : Ctx) (rect : Rect) (e eUp : PointerEvent)
    (hA : ∀ a ∈ actions, a.type = ActionType.moveTo)
    (hc : s.canvas = true) (hx : s.ctx = some cs) (hlog : s.drawingActions = actions) :
    (renderSketch actions (some c)).map Ctx.raster = some [] ∧
    (saveSketch true s store).2.2 = SaveOutcome.saved ∧
    (saveSketch true s store).2.1 = store ++ [SketchDoc.mk actions] ∧
    (processEvents rect initialState [InputEvent.down e, InputEvent.up eUp]).drawingActions
        = [DrawingAction.mk ActionType.moveTo (e.clientX - rect.left) (e.clientY - rect.top)] := by
  refine ⟨?_, ?_, ?_, ?_⟩
  · rw [renderSketch_raster, specReplay_no_lineTo actions hA]
  · simp [saveSketch, hc, hx]
  · simp [saveSketch, hc, hx, hlog]
  · have h1 := startDrawing_some rect e initialState ctxInit rfl rfl
    show (endDrawing (startDrawing rect e initialState)).drawingActions = _
    rw [endDrawing_drawingActions, h1]
    simp [initialState]

theorem c7_witness :
    (renderSketch [] (some ctxInit)).map Ctx.raster = some [] ∧
    (saveSketch true initialState []).2.2 = SaveOutcome.saved ∧
    (processEvents ⟨0, 0⟩ initialState
        [InputEvent.down ⟨4, 9⟩, InputEvent.up ⟨4, 9⟩]).drawingActions
      = [DrawingAction.mk ActionType.moveTo 4 9] := by
  have h := c7_no_lineTo_blank [] ctxInit initialState
    [] ctxInit ⟨0, 0⟩ ⟨4, 9⟩ ⟨4, 9⟩ (by simp) rfl rfl rfl
  refine ⟨h.1, h.2.1, ?_⟩
  have h4 := h.2.2.2
  simpa using h4

/-- C8: the page-load path returns the fetched data when the remote
snapshot holds data, and a status-500 error object when the snapshot
holds none. -/
theorem c8_load_result (d : List (String × PostsPage.Post)) :
    PostsPage.load (some d) = PostsPage.LoadResult.ok d ∧
    PostsPage.load none = PostsPage.LoadResult.err 500 "Could not load data" :=
  ⟨rfl, rfl⟩

/-- C9: when the remote write rejects, `saveSketch` leaves the component
state and the store exactly as they were: the log keeps its contents, the
gallery is not extended, the surface is not cleared, and no notification
is shown, because every local mutation sits after the awaited write. -/
theorem c9_failed_save_no_mutation (s : SketchState) (store : List SketchDoc) (c : Ctx)
    (hc : s.canvas = true) (hx : s.ctx = some c) :
    saveSketch false s store = (s, store, SaveOutcome.writeFailed) := by
  simp [saveSketch, hc, hx]

theorem c9_witness :
    saveSketch false sampleState [] = (sampleState, [], SaveOutcome.writeFailed) :=
  c9_failed_save_no_mutation sampleState [] ctxInit rfl rfl

/-- C10: after a successful save the in-memory log is empty and the
gallery list is exactly the old list plus one entry whose contents equal
the log that was saved; every previously present entry is unchanged. -/
theorem c10_successful_save_frame (s : SketchState) (store : List SketchDoc) (c : Ctx)
    (hc : s.canvas = true) (hx : s.ctx = some c) :
    (saveSketch true s store).1.drawingActions = [] ∧
    (saveSketch true s store).1.sketches = s.sketches ++ [s.drawingActions] ∧
    (saveSketch true s store).1.sketches.length = s.sketches.length + 1 ∧
    ((saveSketch true s store).1.sketches).take s.sketches.length = s.sketches := by
  refine ⟨?_, ?_, ?_, ?_⟩ <;> simp [saveSketch, hc, hx, List.take_left]

theorem c10_witness :
    (saveSketch true sampleState []).1.drawingActions = [] ∧
    (saveSketch true sampleState []).1.sketches = [sampleLog] := by
  have h := c10_successful_save_frame sampleState [] ctxInit rfl rfl
  refine ⟨h.1, ?_⟩
  rw [h.2.1]
  rfl

end SketchApp
